import Mathlib

/-! Questionnaire prompts of `create-nodejs-project`.

A shallow embedding of `src/questionnaire/questions.js`.

The module builds lists of question objects and hands them to the
`inquirer` prompt library.  The embedding has three layers:

* the JavaScript values and built-ins the module calls
  (`String.prototype.split`, `JSON.stringify`, truthiness);
* the question lists themselves, one definition per exported function,
  field by field as written in the source;
* the behaviour of `inquirer.prompt` on a question list, driven by a
  script of user inputs.

JavaScript strings are modelled by Lean strings (sequences of Unicode
scalar values): the comma is a single UTF-16 code unit that never occurs
inside a surrogate pair, so splitting on it acts the same on both views.
-/

namespace Questions

/-! ## JavaScript values -/

/-- JavaScript values that occur in question objects and answer records. -/
inductive JSValue where
  | undefined : JSValue
  | null : JSValue
  | bool (b : Bool) : JSValue
  | str (s : String) : JSValue
  | arr (xs : List JSValue) : JSValue
  | obj (kvs : List (String × JSValue)) : JSValue

/-- JavaScript `ToBoolean` on the modelled values: `undefined`, `null`,
`false` and the empty string are falsy, everything else is truthy. -/
def JSValue.truthy : JSValue → Bool
  | .undefined => false
  | .null => false
  | .bool b => b
  | .str s => !(s.data.isEmpty)
  | .arr _ => true
  | .obj _ => true

/-! ## `String.prototype.split` with the separator `','` -/

/-- The scan of `split`: `cur` holds (reversed) the characters read since
the last separator; a separator closes the current segment, the end of
the input closes the last one. -/
def splitScan (sep : Char) : List Char → List Char → List (List Char)
  | [], cur => [cur.reverse]
  | c :: cs, cur =>
    if c = sep then cur.reverse :: splitScan sep cs []
    else splitScan sep cs (c :: cur)

/-- The call `ans.split(sep)` for a one-character separator and no limit. -/
def split (ans : String) (sep : Char) : List String :=
  (splitScan sep ans.data []).map String.mk

/-! ## `JSON.stringify` on an array of strings -/

/-- Lower-case hexadecimal digit of a number below sixteen. -/
def hexDigit (n : Nat) : Char :=
  if n < 10 then Char.ofNat (48 + n) else Char.ofNat (87 + n)

/-- The text `JSON.stringify` writes for one character of a string
(`QuoteJSONString`): the two-character escapes, then `\u00xx` for the
other control characters, everything else verbatim.  Lone surrogates,
which it also escapes, are no Lean characters. -/
def quoteChar (c : Char) : List Char :=
  if c = '"' then ['\\', '"']
  else if c = '\\' then ['\\', '\\']
  else if c = '\x08' then ['\\', 'b']
  else if c = '\x0c' then ['\\', 'f']
  else if c = '\n' then ['\\', 'n']
  else if c = '\r' then ['\\', 'r']
  else if c = '\t' then ['\\', 't']
  else if c.toNat < 32 then
    ['\\', 'u', '0', '0', hexDigit (c.toNat / 16), hexDigit (c.toNat % 16)]
  else [c]

/-- The quoted form of a string: `QuoteJSONString`. -/
def quoteJSONString (s : List Char) : List Char :=
  '"' :: (s.flatMap quoteChar ++ ['"'])

/-- The elements of an array joined by commas, as `SerializeJSONArray`
does without a gap. -/
def joinElements : List (List Char) → List Char
  | [] => []
  | [x] => x
  | x :: y :: rest => x ++ ',' :: joinElements (y :: rest)

namespace JSON

/-- The call `JSON.stringify(xs)` for an array of strings. -/
def stringify (xs : List String) : String :=
  String.mk ('[' :: (joinElements (xs.map fun x => quoteJSONString x.data) ++ [']']))

end JSON

/-- The `filter` of the keywords prompt:
`ans => JSON.stringify(ans.split(','))`. -/
def keywordsFilter (ans : String) : String :=
  JSON.stringify (split ans ',')

/-! ## Question objects -/

/-- The `type` of a question object. -/
inductive PromptType where
  | input
  | list
  | checkbox
  | confirm
deriving DecidableEq, Repr

/-- One entry of a `choices` list: the label shown and the value
recorded when the entry is selected. -/
structure Choice where
  name : String
  value : String
deriving DecidableEq, Repr

/-- A question object as passed to `inquirer.prompt`.  A property the
source does not write is `none`. -/
structure Question where
  type : PromptType
  name : String
  message : String
  default : Option JSValue := none
  choices : Option (List Choice) := none
  filter : Option (String → String) := none
  validate : Option (String → JSValue) := none

/-- The `defaults` argument of `promptProjectDetails`. -/
structure Defaults where
  projectName : String
  version : String
  license : String
  gitUserName : String
  gitUserEmail : String
  template : String
deriving DecidableEq, Repr

/-- The array literal of `promptProjectDetails`. -/
def projectDetailsQuestions (defaults : Defaults)
    (licenses testingPkgs templates : List Choice) : List Question :=
  [ { type := .input
      name := "name"
      message := "What is your project name?"
      default := some (.str defaults.projectName) },
    { type := .list
      name := "template"
      message := "What kind of project are you creating?"
      choices := some templates
      default := some (.str defaults.template) },
    { type := .input
      name := "description"
      message := "How would you describe your project?" },
    { type := .input
      name := "version"
      message := "What version do you want to start with?"
      default := some (.str defaults.version) },
    { type := .input
      name := "keywords"
      message := "Provide a comma-separated list of keywords:"
      filter := some keywordsFilter },
    { type := .list
      name := "license"
      message := "Please select a license"
      choices := some licenses
      default := some (.str defaults.license) },
    { type := .input
      name := "author.name"
      message := "What is your name?"
      default := some (.str defaults.gitUserName) },
    { type := .input
      name := "author.email"
      message := "What is your email?"
      default := some (.str defaults.gitUserEmail) },
    { type := .input
      name := "author.url"
      message := "What is your website?" },
    { type := .confirm
      name := "isPrivate"
      message := "Is this project private?"
      default := some (.bool false) },
    { type := .input
      name := "projectURL"
      message := "What is your project website?" },
    { type := .checkbox
      name := "testPackages"
      message := "Which test packages do you want to include?"
      choices := some testingPkgs },
    { type := .confirm
      name := "useGithub"
      message := "Would you like to create a GitHub repository?" } ]

/-- The array literal of `promptGitRemoteDetails`. -/
def gitRemoteDetailsQuestions : List Question :=
  [ { type := .input
      name := "git.sshUrl"
      message := "What git remote will you be using?" },
    { type := .input
      name := "issueTracker"
      message := "Where is your issue tracker?" } ]

/-- The rejection message of the settings-path prompt. -/
def settingsPathMessage : String :=
  "You should introduce a real path for the create-nodejs-settings.json"

/-- The `validate` of the settings-path prompt.  The two collaborators,
`utils.files.resolvePath` and `fs.existsSync`, are parameters; `&&`
evaluates `existsSync` only when the resolved path is truthy. -/
def validate (resolvePath : String → JSValue) (existsSync : JSValue → Bool)
    (ans : String) : JSValue :=
  let path := resolvePath ans
  if path.truthy && existsSync path then .bool true
  else .str settingsPathMessage

/-- The array literal of `promptSettingsFile`. -/
def settingsFileQuestions (resolvePath : String → JSValue) (existsSync : JSValue → Bool)
    (settingsPath : String) : List Question :=
  [ { type := .input
      name := "settingsPath"
      message := "What is the path for the create-nodejs-settings.json file?"
      default := some (.str settingsPath)
      validate := some (validate resolvePath existsSync) } ]

/-- The array literal of `promptGithubUser`. -/
def githubUserQuestions (user : String) : List Question :=
  [ { type := .input
      name := "github.user"
      message := "What is your Github user?"
      default := some (.str user) } ]

/-- The array literal of `promptAuthToken`; the message is the template
literal with `user` interpolated. -/
def authTokenQuestions (user token : String) : List Question :=
  [ { type := .input
      name := "github.token"
      message := "What is your GitHub token for user " ++ user ++ "?"
      default := some (.str token) } ]

/-- The array literal of `promptUpdateToken`. -/
def updateTokenQuestions : List Question :=
  [ { type := .confirm
      name := "updateToken"
      message := "Do you want to update the settings file with this token?" } ]

/-! ## The prompt library

The module calls `inquirer.prompt`, and `inquirer` stores answers with
`_.set` of lodash.  Neither library is among the sources: this section
models the interaction layer the way the specification describes it,
which is the documented behaviour of the two libraries.  The user is a
script: a list of inputs, consumed front to back, one per prompt unless a
`validate` rule rejects an answer and the prompt is shown again. -/

/-- Modelled from the spec: the answers a user gives to the interaction
layer, one constructor per kind of prompt. -/
inductive UserInput where
  /-- The text typed at an `input` prompt before Enter; `""` is Enter alone. -/
  | line (text : String)
  /-- A `list` prompt: Enter on the entry at index `i`, or `none` for Enter
  without moving the cursor. -/
  | pick (i : Option Nat)
  /-- A `checkbox` prompt: the indices of the entries checked before Enter. -/
  | check (sel : List Nat)
  /-- A `confirm` prompt: `y` or `n` typed, or `none` for Enter alone. -/
  | yesNo (b : Option Bool)
deriving DecidableEq, Repr

/-- Modelled from the spec: lookup of an own property in the key-value
list of an answer record. -/
def getField (k : String) : List (String × JSValue) → Option JSValue
  | [] => none
  | (k', v) :: rest => if k' = k then some v else getField k rest

/-- Modelled from the spec: assignment to a property of an answer record;
an existing key keeps its position, a new key is appended. -/
def setField (k : String) (v : JSValue) : List (String × JSValue) → List (String × JSValue)
  | [] => [(k, v)]
  | (k', v') :: rest => if k' = k then (k, v) :: rest else (k', v') :: setField k v rest

/-- Modelled from the spec: the own properties of a value; a value that
is not an object has none. -/
def JSValue.fields : JSValue → List (String × JSValue)
  | .obj kvs => kvs
  | _ => []

/-- Modelled from the spec: the nesting of answers, the call
`_.set(target, path, v)` of lodash for a path of property names;
intermediate properties that are missing, or are not objects, are
replaced by fresh objects. -/
def setPath : List String → JSValue → JSValue → JSValue
  | [], _, target => target
  | [k], v, target => .obj (setField k v target.fields)
  | k :: k2 :: ks, v, target =>
    let child := match getField k target.fields with
      | some (.obj kvs) => JSValue.obj kvs
      | _ => JSValue.obj []
    .obj (setField k (setPath (k2 :: ks) v child) target.fields)

/-- Modelled from the spec: reading a nested field of an answer record,
the call `_.get(target, path)` for a path of property names. -/
def getPath : List String → JSValue → Option JSValue
  | [], target => some target
  | k :: ks, target =>
    match getField k target.fields with
    | some v => getPath ks v
    | none => none

/-- Modelled from the spec: the property path a question name denotes,
its dot-separated parts (`author.name` is `name` under `author`). -/
def toPath (name : String) : List String :=
  split name '.'

namespace Inquirer

/-- Modelled from the spec: the value a free-text prompt takes from a
typed line; an empty line gives the `default`, or the empty string when
there is none (`filterInput` of the `input` prompt of inquirer). -/
def filterInput (q : Question) (input : String) : JSValue :=
  if input = "" then
    match q.default with
    | none => .str ""
    | some .undefined => .str ""
    | some .null => .str ""
    | some d => d
  else .str input

/-- Modelled from the spec: the transform step, the `filter` of a question
applied to a value before it enters the result; a question without one
leaves the value alone.  The filters of this module take strings. -/
def applyFilter (q : Question) (v : JSValue) : Option JSValue :=
  match q.filter with
  | none => some v
  | some f =>
    match v with
    | .str s => some (.str (f s))
    | _ => none

/-- Modelled from the spec: whether the `validate` of a question accepts a
value; only the result `true` accepts, any other result is a rejection
message, and a question without `validate` accepts everything. -/
def accepts (q : Question) (v : JSValue) : Option Bool :=
  match q.validate with
  | none => some true
  | some check =>
    match v with
    | .str s =>
      match check s with
      | .bool true => some true
      | _ => some false
    | _ => none

/-- Modelled from the spec: a free-text prompt; a rejected answer shows
the prompt again, so lines are read until one passes `validate`, and the
script ending first is the caller cancelling. -/
def askInput (q : Question) : List UserInput → Option (JSValue × List UserInput)
  | .line text :: rest =>
    match applyFilter q (filterInput q text) with
    | none => none
    | some v =>
      match accepts q v with
      | none => none
      | some true => some (v, rest)
      | some false => askInput q rest
  | _ => none

/-- Modelled from the spec: the entry of a single-select prompt under the
cursor when it opens; the first entry whose value is the `default`, else
the first entry. -/
def preselected (default : Option JSValue) (choices : List Choice) : Nat :=
  match default with
  | some (.str d) => (choices.findIdx? fun c => c.value = d).getD 0
  | _ => 0

/-- Modelled from the spec: the entry a single-select prompt settles on;
the one at the index the user moved to, or the preselected one on Enter
alone, and `none` when the list has no such entry. -/
def selected (default : Option JSValue) (choices : List Choice) (i : Option Nat) :
    Option Choice :=
  choices[i.getD (preselected default choices)]?

/-- Modelled from the spec: a single-select prompt; its answer is the
value of the entry the user settles on. -/
def askList (q : Question) : List UserInput → Option (JSValue × List UserInput)
  | .pick i :: rest =>
    match selected q.default (q.choices.getD []) i with
    | some c => some (.str c.value, rest)
    | none => none
  | _ => none

/-- Modelled from the spec: the values of the entries of `choices` checked
by `sel`, in list order. -/
def checkedValues (choices : List Choice) (sel : List Nat) : List JSValue :=
  (choices.enum.filter fun e => sel.contains e.1).map fun e => .str e.2.value

/-- Modelled from the spec: a multi-select prompt; its answer is the array
of the values of the checked entries, empty when none is checked. -/
def askCheckbox (q : Question) : List UserInput → Option (JSValue × List UserInput)
  | .check sel :: rest => some (.arr (checkedValues (q.choices.getD []) sel), rest)
  | _ => none

/-- Modelled from the spec: a boolean confirm prompt; Enter alone gives
the boolean `default` of the question.  For a question without one the
model takes `true`, the value inquirer falls back to. -/
def askConfirm (q : Question) : List UserInput → Option (JSValue × List UserInput)
  | .yesNo b :: rest =>
    let rawDefault := match q.default with
      | some (.bool d) => d
      | _ => true
    some (.bool (b.getD rawDefault), rest)
  | _ => none

/-- Modelled from the spec: one prompt, by the `type` of its question. -/
def ask (q : Question) (inputs : List UserInput) : Option (JSValue × List UserInput) :=
  match q.type with
  | .input => askInput q inputs
  | .list => askList q inputs
  | .checkbox => askCheckbox q inputs
  | .confirm => askConfirm q inputs

/-- Modelled from the spec: the questions asked one at a time in order,
each answer stored in the answers object under the path its question
name denotes. -/
def promptFrom : List Question → JSValue → List UserInput → Option JSValue
  | [], answers, _ => some answers
  | q :: qs, answers, inputs =>
    match ask q inputs with
    | none => none
    | some (v, rest) => promptFrom qs (setPath (toPath q.name) v answers) rest

/-- Modelled from the spec: the call `inquirer.prompt(questions)`; the
consolidated answers object, or `none` when the script ends before every
question has an accepted answer. -/
def prompt (questions : List Question) (inputs : List UserInput) : Option JSValue :=
  promptFrom questions (.obj []) inputs

end Inquirer

/-! ## The exported functions -/

/-- The function `promptProjectDetails`. -/
def promptProjectDetails (defaults : Defaults)
    (licenses testingPkgs templates : List Choice) (inputs : List UserInput) : Option JSValue :=
  Inquirer.prompt (projectDetailsQuestions defaults licenses testingPkgs templates) inputs

/-- The function `promptGitRemoteDetails`. -/
def promptGitRemoteDetails (inputs : List UserInput) : Option JSValue :=
  Inquirer.prompt gitRemoteDetailsQuestions inputs

/-- The function `promptSettingsFile`. -/
def promptSettingsFile (resolvePath : String → JSValue) (existsSync : JSValue → Bool)
    (settingsPath : String) (inputs : List UserInput) : Option JSValue :=
  Inquirer.prompt (settingsFileQuestions resolvePath existsSync settingsPath) inputs

/-- The function `promptGithubUser`. -/
def promptGithubUser (user : String) (inputs : List UserInput) : Option JSValue :=
  Inquirer.prompt (githubUserQuestions user) inputs

/-- The function `promptAuthToken`. -/
def promptAuthToken (user token : String) (inputs : List UserInput) : Option JSValue :=
  Inquirer.prompt (authTokenQuestions user token) inputs

/-- The function `promptUpdateToken`. -/
def promptUpdateToken (inputs : List UserInput) : Option JSValue :=
  Inquirer.prompt updateTokenQuestions inputs

/-! ## Scripts for `promptProjectDetails` -/

/-- A script for `promptProjectDetails`: one input for each of its prompts. -/
structure ProjectScript where
  name : String
  template : Option Nat
  description : String
  version : String
  keywords : String
  license : Option Nat
  authorName : String
  authorEmail : String
  authorUrl : String
  isPrivate : Option Bool
  projectURL : String
  testPackages : List Nat
  useGithub : Option Bool
deriving DecidableEq, Repr

/-- The inputs of a script in the order of the prompts. -/
def ProjectScript.inputs (a : ProjectScript) : List UserInput :=
  [.line a.name, .pick a.template, .line a.description, .line a.version, .line a.keywords,
   .pick a.license, .line a.authorName, .line a.authorEmail, .line a.authorUrl,
   .yesNo a.isPrivate, .line a.projectURL, .check a.testPackages, .yesNo a.useGithub]

/-- A `list` prompt over `choices` can be settled by the pick `i`: the
index exists, and Enter alone needs a list that is not empty. -/
def settles (choices : List Choice) : Option Nat → Prop
  | none => choices ≠ []
  | some i => i < choices.length

/-- The script of a user who presses Enter at every prompt. -/
def blankScript : ProjectScript :=
  { name := "", template := none, description := "", version := "", keywords := "",
    license := none, authorName := "", authorEmail := "", authorUrl := "",
    isPrivate := none, projectURL := "", testPackages := [], useGithub := none }

/-- Sample arguments for `promptProjectDetails`. -/
def sampleDefaults : Defaults :=
  { projectName := "my-project", version := "0.1.0", license := "MIT",
    gitUserName := "Ann", gitUserEmail := "ann@example.org", template := "lib" }

/-- A sample list of licenses. -/
def sampleLicenses : List Choice :=
  [{ name := "MIT License", value := "MIT" }, { name := "ISC License", value := "ISC" }]

/-- A sample list of test packages. -/
def sampleTestingPkgs : List Choice :=
  [{ name := "Mocha", value := "mocha" }, { name := "Jest", value := "jest" }]

/-- A sample list of templates. -/
def sampleTemplates : List Choice :=
  [{ name := "Library", value := "lib" }, { name := "Application", value := "app" }]

/-- The sample defaults with a template and a license that are in no list. -/
def strayDefaults : Defaults :=
  { projectName := "my-project", version := "0.1.0", license := "GPL",
    gitUserName := "Ann", gitUserEmail := "ann@example.org", template := "cli" }

/-- The property paths of the documented fields of the project details
record. -/
def documentedFields : List (List String) :=
  [["name"], ["template"], ["description"], ["version"], ["keywords"], ["license"],
   ["author", "name"], ["author", "email"], ["author", "url"], ["isPrivate"],
   ["projectURL"], ["testPackages"], ["useGithub"]]

/-- The own property names of a value, in order. -/
def JSValue.keys (v : JSValue) : List String :=
  v.fields.map Prod.fst

/-! ## Reference definitions for the keywords claims -/

/-- Splitting strictly on a separator, by recursion on the text: a
separator starts a new segment, any other character joins the segment
that follows it. -/
def segments (sep : Char) : List Char → List (List Char)
  | [] => [[]]
  | c :: cs =>
    if c = sep then [] :: segments sep cs
    else
      match segments sep cs with
      | [] => [[c]]
      | seg :: more => (c :: seg) :: more

/-- The sequence of substrings obtained by splitting strictly on the comma. -/
def splitStrictly (s : String) : List String :=
  (segments ',' s.data).map String.mk

/-- The segments joined by the separator. -/
def joinWith (sep : Char) : List (List Char) → List Char
  | [] => []
  | [x] => x
  | x :: y :: rest => x ++ sep :: joinWith sep (y :: rest)

/-- White space and line terminators of ECMAScript: what `trim` strips. -/
def isWhiteSpace (c : Char) : Bool :=
  [0x09, 0x0a, 0x0b, 0x0c, 0x0d, 0x20, 0xa0, 0x1680, 0x2028, 0x2029, 0x202f, 0x205f,
    0x3000, 0xfeff].contains c.toNat || (0x2000 ≤ c.toNat && c.toNat ≤ 0x200a)

/-- A string is trimmed when it neither starts nor ends with white space. -/
def isTrimmed (s : String) : Bool :=
  !(s.data.head?.any isWhiteSpace) && !(s.data.getLast?.any isWhiteSpace)

/-- The value of a hexadecimal digit. -/
def hexValue (c : Char) : Option Nat :=
  if 48 ≤ c.toNat ∧ c.toNat ≤ 57 then some (c.toNat - 48)
  else if 97 ≤ c.toNat ∧ c.toNat ≤ 102 then some (c.toNat - 87)
  else if 65 ≤ c.toNat ∧ c.toNat ≤ 70 then some (c.toNat - 55)
  else none

/-- The character a two-character escape of JSON stands for. -/
def unescape (e : Char) : Option Char :=
  if e = '"' then some '"'
  else if e = '\\' then some '\\'
  else if e = '/' then some '/'
  else if e = 'b' then some '\x08'
  else if e = 'f' then some '\x0c'
  else if e = 'n' then some '\n'
  else if e = 'r' then some '\r'
  else if e = 't' then some '\t'
  else none

/-- Reads the body of a JSON string up to its closing quote: the decoded
characters and the text after the quote.  A `\u` escape of half a
surrogate pair, which is no character, is not read. -/
def unquote : List Char → Option (List Char × List Char)
  | [] => none
  | c :: rest =>
    if c = '"' then some ([], rest)
    else if c = '\\' then
      match rest with
      | [] => none
      | e :: rest2 =>
        if e = 'u' then
          match rest2 with
          | h1 :: h2 :: h3 :: h4 :: rest3 =>
            match hexValue h1, hexValue h2, hexValue h3, hexValue h4 with
            | some d1, some d2, some d3, some d4 =>
              if (((d1 * 16 + d2) * 16 + d3) * 16 + d4).isValidChar then
                (unquote rest3).map fun p =>
                  (Char.ofNat (((d1 * 16 + d2) * 16 + d3) * 16 + d4) :: p.1, p.2)
              else none
            | _, _, _, _ => none
          | _ => none
        else
          match unescape e with
          | some ch => (unquote rest2).map fun p => (ch :: p.1, p.2)
          | none => none
    else if c.toNat < 32 then none
    else (unquote rest).map fun p => (c :: p.1, p.2)

/-- Reads the elements of a JSON array of strings after the opening
bracket; `fuel` bounds the number of elements. -/
def parseItems : Nat → List Char → Option (List (List Char))
  | 0, _ => none
  | _ + 1, [] => none
  | fuel + 1, c :: rest =>
    if c = '"' then
      match unquote rest with
      | some (x, d :: rest2) =>
        if d = ',' then (parseItems fuel rest2).map fun xs => x :: xs
        else if d = ']' ∧ rest2 = [] then some [x]
        else none
      | _ => none
    else none

namespace JSON

/-- The call `JSON.parse(text)` for the text of an array of strings
written without white space, as `JSON.stringify` writes it; the fuel, the
length of the text, exceeds the number of elements. -/
def parseStrings (text : String) : Option (List String) :=
  match text.data with
  | [] => none
  | c :: rest =>
    if c = '[' then
      if rest = [']'] then some []
      else (parseItems rest.length rest).map fun xs => xs.map String.mk
    else none

end JSON

/-! ## The comma split -/

theorem splitScan_length (sep : Char) (l cur : List Char) :
    (splitScan sep l cur).length = l.count sep + 1 := by
  induction l generalizing cur with
  | nil => simp [splitScan]
  | cons c cs ih =>
    by_cases h : c = sep
    · subst h; simp [splitScan, ih]
    · have h2 : ¬ (c == sep) = true := by simpa using h
      simp [splitScan, h, ih, List.count_cons, h2]

theorem splitScan_no_sep (sep : Char) (l cur : List Char) (hcur : sep ∉ cur) :
    ∀ seg ∈ splitScan sep l cur, sep ∉ seg := by
  induction l generalizing cur with
  | nil => simp [splitScan, hcur]
  | cons c cs ih =>
    by_cases h : c = sep
    · subst h
      simp only [splitScan, if_true, List.mem_cons]
      rintro seg (rfl | hseg)
      · simpa using hcur
      · exact ih [] (by simp) seg hseg
    · simp only [splitScan, h, if_false]
      apply ih
      simp only [List.mem_cons, not_or]
      exact ⟨fun e => h e.symm, hcur⟩

theorem splitScan_ne_nil (sep : Char) (l cur : List Char) : splitScan sep l cur ≠ [] := by
  intro h
  have := splitScan_length sep l cur
  simp [h] at this

theorem joinWith_cons (sep : Char) (x : List Char) (xs : List (List Char)) (h : xs ≠ []) :
    joinWith sep (x :: xs) = x ++ sep :: joinWith sep xs := by
  cases xs with
  | nil => exact absurd rfl h
  | cons y ys => rfl

theorem joinWith_splitScan (sep : Char) (l cur : List Char) :
    joinWith sep (splitScan sep l cur) = cur.reverse ++ l := by
  induction l generalizing cur with
  | nil => simp [splitScan, joinWith]
  | cons c cs ih =>
    by_cases h : c = sep
    · subst h
      simp only [splitScan, if_true]
      rw [joinWith_cons _ _ _ (splitScan_ne_nil _ _ _), ih]
      simp
    · simp only [splitScan, h, if_false]
      rw [ih]; simp

theorem intercalate_go_data (acc sep : String) (xs : List String) :
    (String.intercalate.go acc sep xs).data
      = acc.data ++ xs.flatMap (fun x => sep.data ++ x.data) := by
  induction xs generalizing acc with
  | nil => simp [String.intercalate.go]
  | cons x xs ih => simp [String.intercalate.go, ih, List.flatMap_cons]

theorem intercalate_data (sep : Char) (xs : List (List Char)) :
    (String.intercalate (String.singleton sep) (xs.map String.mk)).data = joinWith sep xs := by
  cases xs with
  | nil => rfl
  | cons x xs =>
    simp only [List.map_cons, String.intercalate, intercalate_go_data]
    induction xs generalizing x with
    | nil => simp [joinWith]
    | cons y ys ih =>
      simp only [List.map_cons, List.flatMap_cons, joinWith]
      rw [← ih y]
      simp [String.singleton]

theorem intercalate_split (s : String) : String.intercalate "," (split s ',') = s := by
  have h := intercalate_data ',' (splitScan ',' s.data [])
  rw [joinWith_splitScan] at h
  apply String.ext
  simpa [split] using h

theorem segments_ne_nil (sep : Char) (l : List Char) : segments sep l ≠ [] := by
  cases l with
  | nil => simp [segments]
  | cons c cs =>
    by_cases h : c = sep
    · simp [segments, h]
    · simp only [segments, h, if_false]
      split <;> simp

theorem segments_append (sep : Char) (pre l : List Char) (hpre : sep ∉ pre) :
    segments sep (pre ++ l)
      = (pre ++ (segments sep l).headD []) :: (segments sep l).tail := by
  induction pre with
  | nil =>
    have h := segments_ne_nil sep l
    cases hs : segments sep l with
    | nil => exact absurd hs h
    | cons seg more => simp [hs]
  | cons c cs ih =>
    have hc : ¬ c = sep := fun e => hpre (by simp [e])
    have hcs : sep ∉ cs := fun e => hpre (by simp [e])
    have hstep : segments sep (c :: (cs ++ l))
        = match segments sep (cs ++ l) with
          | [] => [[c]]
          | seg :: more => (c :: seg) :: more := by
      simp only [segments, hc, if_false]
    rw [List.cons_append, hstep, ih hcs]
    rfl

theorem splitScan_eq_segments (sep : Char) (l cur : List Char) (hcur : sep ∉ cur) :
    splitScan sep l cur = segments sep (cur.reverse ++ l) := by
  induction l generalizing cur with
  | nil =>
    rw [segments_append sep _ _ (by simpa using hcur)]
    simp [splitScan, segments]
  | cons c cs ih =>
    by_cases h : c = sep
    · subst h
      rw [segments_append c _ _ (by simpa using hcur)]
      simp [splitScan, segments, ih [] (by simp)]
    · have hcur2 : sep ∉ c :: cur := by
        simp only [List.mem_cons, not_or]
        exact ⟨fun e => h e.symm, hcur⟩
      simp only [splitScan, h, if_false]
      rw [ih (c :: cur) hcur2]
      simp

theorem split_eq_splitStrictly (s : String) : split s ',' = splitStrictly s := by
  simp [split, splitStrictly, splitScan_eq_segments]

theorem infix_joinWith (sep : Char) (xs : List (List Char)) (seg : List Char)
    (h : seg ∈ xs) : seg <:+: joinWith sep xs := by
  induction xs with
  | nil => simp at h
  | cons x rest ih =>
    cases rest with
    | nil =>
      simp only [List.mem_singleton] at h
      subst h
      exact List.infix_refl _
    | cons y ys =>
      rw [joinWith_cons _ _ _ (by simp)]
      rcases List.mem_cons.mp h with rfl | h2
      · exact (List.prefix_append _ _).isInfix
      · exact (ih h2).trans ((List.suffix_cons _ _).isInfix.trans
          (List.suffix_append _ _).isInfix)

theorem countP_joinWith (p : Char → Bool) (sep : Char) (hsep : p sep = false)
    (xs : List (List Char)) :
    (joinWith sep xs).countP p = (xs.map fun x => x.countP p).sum := by
  induction xs with
  | nil => simp [joinWith]
  | cons x rest ih =>
    cases rest with
    | nil => simp [joinWith]
    | cons y ys =>
      rw [joinWith_cons _ _ _ (by simp), List.countP_append, List.countP_cons, ih]
      simp [hsep]

/-! ## `JSON.stringify` read back -/

theorem hexValue_hexDigit (n : Nat) (h : n < 16) : hexValue (hexDigit n) = some n := by
  interval_cases n <;> decide


theorem unquote_cons (c : Char) (rest : List Char) : unquote (c :: rest) =
    if c = '"' then some ([], rest)
    else if c = '\\' then
      match rest with
      | [] => none
      | e :: rest2 =>
        if e = 'u' then
          match rest2 with
          | h1 :: h2 :: h3 :: h4 :: rest3 =>
            match hexValue h1, hexValue h2, hexValue h3, hexValue h4 with
            | some d1, some d2, some d3, some d4 =>
              if (((d1 * 16 + d2) * 16 + d3) * 16 + d4).isValidChar then
                (unquote rest3).map fun p =>
                  (Char.ofNat (((d1 * 16 + d2) * 16 + d3) * 16 + d4) :: p.1, p.2)
              else none
            | _, _, _, _ => none
          | _ => none
        else
          match unescape e with
          | some ch => (unquote rest2).map fun p => (ch :: p.1, p.2)
          | none => none
    else if c.toNat < 32 then none
    else (unquote rest).map fun p => (c :: p.1, p.2) := by
  rw [unquote.eq_def]

theorem unquote_escape (e ch : Char) (tail : List Char) (he : e ≠ 'u')
    (h : unescape e = some ch) :
    unquote ('\\' :: e :: tail) = (unquote tail).map fun p => (ch :: p.1, p.2) := by
  rw [unquote_cons]
  simp [he, h]

theorem unquote_quoteChar (c : Char) (tail : List Char) :
    unquote (quoteChar c ++ tail) = (unquote tail).map fun p => (c :: p.1, p.2) := by
  unfold quoteChar
  split_ifs with h1 h2 h3 h4 h5 h6 h7 h8
  · subst h1; exact unquote_escape _ _ _ (by decide) (by decide)
  · subst h2; exact unquote_escape _ _ _ (by decide) (by decide)
  · subst h3; exact unquote_escape _ _ _ (by decide) (by decide)
  · subst h4; exact unquote_escape _ _ _ (by decide) (by decide)
  · subst h5; exact unquote_escape _ _ _ (by decide) (by decide)
  · subst h6; exact unquote_escape _ _ _ (by decide) (by decide)
  · subst h7; exact unquote_escape _ _ _ (by decide) (by decide)
  · have hd1 : hexValue (hexDigit (c.toNat / 16)) = some (c.toNat / 16) :=
      hexValue_hexDigit _ (by omega)
    have hd2 : hexValue (hexDigit (c.toNat % 16)) = some (c.toNat % 16) :=
      hexValue_hexDigit _ (by omega)
    have h0 : hexValue '0' = some 0 := by decide
    have hc : Char.ofNat (c.toNat / 16 * 16 + c.toNat % 16) = c := by
      rw [Nat.div_add_mod']; exact Char.ofNat_toNat c
    have hvalid : (c.toNat / 16 * 16 + c.toNat % 16).isValidChar := by
      rw [Nat.div_add_mod']; exact Or.inl (by omega)
    simp only [List.cons_append, List.nil_append]
    rw [unquote_cons]
    simp [h0, hd1, hd2, hc, hvalid]
  · simp only [List.cons_append, List.nil_append]
    rw [unquote_cons]
    simp [h1, h2, h8]

theorem unquote_body (s rest : List Char) :
    unquote (s.flatMap quoteChar ++ '"' :: rest) = some (s, rest) := by
  induction s with
  | nil => rw [List.flatMap_nil, List.nil_append, unquote_cons]; simp
  | cons c cs ih =>
    rw [List.flatMap_cons, List.append_assoc, unquote_quoteChar, ih]
    rfl

theorem joinElements_cons (x : List Char) (xs : List (List Char)) (h : xs ≠ []) :
    joinElements (x :: xs) = x ++ ',' :: joinElements xs := by
  cases xs with
  | nil => exact absurd rfl h
  | cons y ys => rfl

theorem parseItems_join (xs : List (List Char)) (hne : xs ≠ []) (fuel : Nat)
    (hfuel : xs.length ≤ fuel) :
    parseItems fuel (joinElements (xs.map quoteJSONString) ++ [']']) = some xs := by
  induction xs generalizing fuel with
  | nil => exact absurd rfl hne
  | cons x rest ih =>
    obtain ⟨fuel, rfl⟩ : ∃ k, fuel = k + 1 := ⟨fuel - 1, by simp at hfuel; omega⟩
    cases rest with
    | nil =>
      simp only [List.map_cons, List.map_nil, joinElements, quoteJSONString, List.cons_append,
        List.append_assoc, List.nil_append]
      rw [parseItems]
      simp [unquote_body]
    | cons y ys =>
      have hrec := ih (by simp) fuel (by simp at hfuel ⊢; omega)
      simp only [List.map_cons] at hrec ⊢
      rw [joinElements_cons _ _ (by simp)]
      simp only [quoteJSONString, List.cons_append, List.append_assoc, List.nil_append] at hrec ⊢
      rw [parseItems]
      simp [unquote_body, hrec]

theorem joinElements_length (xs : List (List Char)) :
    xs.length ≤ (joinElements (xs.map quoteJSONString) ++ [']']).length := by
  induction xs with
  | nil => simp
  | cons x rest ih =>
    cases rest with
    | nil => simp [joinElements, quoteJSONString]
    | cons y ys =>
      simp only [List.map_cons] at ih ⊢
      rw [joinElements_cons _ _ (by simp)]
      simp only [List.length_append, List.length_cons, quoteJSONString] at ih ⊢
      omega

theorem parseStrings_stringify (xs : List String) :
    JSON.parseStrings (JSON.stringify xs) = some xs := by
  cases xs with
  | nil => decide
  | cons x rest =>
    have hne : (x :: rest).map (fun s => s.data) ≠ [] := by simp
    have h := parseItems_join _ hne _ (joinElements_length ((x :: rest).map fun s => s.data))
    simp only [List.map_map] at h
    have hmap : (List.map (quoteJSONString ∘ fun s => s.data) (x :: rest))
        = List.map (fun s => quoteJSONString s.data) (x :: rest) := rfl
    rw [hmap] at h
    simp only [JSON.parseStrings, JSON.stringify]
    rw [if_pos trivial, if_neg, h]
    · simp [Function.comp_def]
    · cases rest with
      | nil => simp [joinElements, quoteJSONString]
      | cons y ys => simp [joinElements, quoteJSONString]

/-! ## The keywords filter -/

/-- C1, as stated, fails: for the answer `a, b,c` the filter yields one
string, the fourteen characters of the JSON text `["a"," b","c"]`, and not
the three-element sequence of the segments. -/
theorem keywordsFilter_yields_text_not_sequence :
    keywordsFilter "a, b,c" = "[\"a\",\" b\",\"c\"]"
      ∧ (keywordsFilter "a, b,c").length = 14
      ∧ JSValue.str (keywordsFilter "a, b,c")
          ≠ JSValue.arr [JSValue.str "a", JSValue.str " b", JSValue.str "c"] := by
  refine ⟨by decide, by decide, ?_⟩
  intro h
  cases h

/-- C1, amended: for every raw answer the keywords filter yields the JSON
text of the sequence obtained by splitting the answer strictly on the
comma, without trimming; reading the text back gives exactly that
sequence, and the answer `a, b,c` yields the text `["a"," b","c"]`, which
reads back as the three segments `a`, ` b` and `c`. -/
theorem keywordsFilter_json_of_strict_split (s : String) :
    keywordsFilter s = JSON.stringify (splitStrictly s)
      ∧ JSON.parseStrings (keywordsFilter s) = some (splitStrictly s)
      ∧ keywordsFilter "a, b,c" = "[\"a\",\" b\",\"c\"]"
      ∧ JSON.parseStrings (keywordsFilter "a, b,c") = some ["a", " b", "c"] := by
  have h : keywordsFilter s = JSON.stringify (splitStrictly s) := by
    rw [keywordsFilter, split_eq_splitStrictly]
  refine ⟨h, ?_, by decide, by decide⟩
  rw [h, parseStrings_stringify]

/-- C3, as stated, fails: the answer `a, b,c` gives the segments `a`, ` b`
and `c`, of which ` b` starts with a space, and the blank answer gives the
one-element sequence holding the empty string, not the empty sequence. -/
theorem keywords_not_trimmed_nor_empty :
    JSON.parseStrings (keywordsFilter "a, b,c") = some ["a", " b", "c"]
      ∧ ¬ (∀ seg ∈ split "a, b,c" ',', isTrimmed seg = true)
      ∧ JSON.parseStrings (keywordsFilter "") = some [""]
      ∧ split "" ',' ≠ [] := by
  decide

/-- C3, amended: for every raw answer the keywords value is the JSON text
of a sequence of one or more substrings of the answer, each without a
comma and taken as typed: no white space is dropped, so an element is
trimmed only where the answer has no white space next to it; the sequence
is never empty, and a blank answer gives the single empty substring. -/
theorem keywords_untrimmed_substrings (s : String) :
    ∃ segs : List String,
      JSON.parseStrings (keywordsFilter s) = some segs
        ∧ segs ≠ []
        ∧ (∀ seg ∈ segs, seg.data <:+: s.data ∧ ',' ∉ seg.data)
        ∧ (segs.map fun seg => seg.data.countP isWhiteSpace).sum = s.data.countP isWhiteSpace
        ∧ (s = "" → segs = [""]) := by
  refine ⟨split s ',', parseStrings_stringify _, ?_, ?_, ?_, ?_⟩
  · simp [split, splitScan_ne_nil]
  · intro seg hseg
    obtain ⟨cs, hcs, rfl⟩ := List.mem_map.mp hseg
    refine ⟨?_, splitScan_no_sep ',' s.data [] (by simp) cs hcs⟩
    have h := infix_joinWith ',' _ cs hcs
    rw [joinWith_splitScan] at h
    simpa using h
  · have h := countP_joinWith isWhiteSpace ',' (by decide) (splitScan ',' s.data [])
    rw [joinWith_splitScan] at h
    simp only [List.reverse_nil, List.nil_append] at h
    rw [h, split, List.map_map]
    rfl
  · rintro rfl
    decide

/-- C10: the comma split of the keywords filter is lossless and never
empty: it has one segment more than the answer has commas, no segment
holds a comma, and the segments joined by commas are the answer again; the
empty answer gives the one-element sequence of the empty string. -/
theorem split_comma_lossless (s : String) :
    keywordsFilter s = JSON.stringify (split s ',')
      ∧ (split s ',').length = s.data.count ',' + 1
      ∧ (∀ seg ∈ split s ',', ',' ∉ seg.data)
      ∧ String.intercalate "," (split s ',') = s
      ∧ split "" ',' = [""] := by
  refine ⟨rfl, ?_, ?_, intercalate_split s, by decide⟩
  · simp [split, splitScan_length]
  · intro seg hseg
    obtain ⟨cs, hcs, rfl⟩ := List.mem_map.mp hseg
    exact splitScan_no_sep ',' s.data [] (by simp) cs hcs

/-! ## The prompt library on the questions of the module -/

theorem askInput_default (q : Question) (d text : String) (rest : List UserInput)
    (hd : q.default = some (.str d)) (hf : q.filter = none) (hv : q.validate = none) :
    Inquirer.askInput q (.line text :: rest)
      = some (.str (if text = "" then d else text), rest) := by
  by_cases h : text = "" <;>
    simp [Inquirer.askInput, Inquirer.applyFilter, Inquirer.accepts, Inquirer.filterInput,
      hd, hf, hv, h]

theorem askInput_plain (q : Question) (text : String) (rest : List UserInput)
    (hd : q.default = none) (hf : q.filter = none) (hv : q.validate = none) :
    Inquirer.askInput q (.line text :: rest) = some (.str text, rest) := by
  by_cases h : text = "" <;>
    simp [Inquirer.askInput, Inquirer.applyFilter, Inquirer.accepts, Inquirer.filterInput,
      hd, hf, hv, h]

theorem askInput_filter (q : Question) (f : String → String) (text : String)
    (rest : List UserInput)
    (hd : q.default = none) (hf : q.filter = some f) (hv : q.validate = none) :
    Inquirer.askInput q (.line text :: rest) = some (.str (f text), rest) := by
  by_cases h : text = "" <;>
    simp [Inquirer.askInput, Inquirer.applyFilter, Inquirer.accepts, Inquirer.filterInput,
      hd, hf, hv, h]

theorem selected_mem (d : Option JSValue) (choices : List Choice) (i : Option Nat)
    (c : Choice) (h : Inquirer.selected d choices i = some c) : c ∈ choices :=
  List.getElem?_mem h

theorem preselected_lt (d : Option JSValue) (choices : List Choice) (h : choices ≠ []) :
    Inquirer.preselected d choices < choices.length := by
  have hpos : 0 < choices.length := List.length_pos.mpr h
  unfold Inquirer.preselected
  split
  · next v =>
    cases hf : choices.findIdx? fun c => decide (c.value = v) with
    | none => simpa using hpos
    | some j =>
      obtain ⟨hj, _⟩ := List.findIdx?_eq_some_iff_getElem.mp hf
      simpa using hj
  · exact hpos

theorem selected_of_settles (d : Option JSValue) (choices : List Choice) (i : Option Nat)
    (h : settles choices i) : ∃ c, Inquirer.selected d choices i = some c := by
  cases i with
  | none =>
    exact ⟨_, List.getElem?_eq_getElem (preselected_lt d choices h)⟩
  | some j =>
    have hj : j < choices.length := h
    exact ⟨_, List.getElem?_eq_getElem hj⟩

theorem mem_checkedValues (choices : List Choice) (sel : List Nat) (v : JSValue)
    (h : v ∈ Inquirer.checkedValues choices sel) : ∃ c ∈ choices, v = .str c.value := by
  obtain ⟨e, he, rfl⟩ := List.mem_map.mp h
  exact ⟨e.2, List.snd_mem_of_mem_enum (List.mem_filter.mp he).1, rfl⟩

theorem checkedValues_nil (choices : List Choice) : Inquirer.checkedValues choices [] = [] := by
  simp [Inquirer.checkedValues]

theorem toPath_simple : toPath "name" = ["name"] ∧ toPath "template" = ["template"]
    ∧ toPath "description" = ["description"] ∧ toPath "version" = ["version"]
    ∧ toPath "keywords" = ["keywords"] ∧ toPath "license" = ["license"]
    ∧ toPath "author.name" = ["author", "name"] ∧ toPath "author.email" = ["author", "email"]
    ∧ toPath "author.url" = ["author", "url"] ∧ toPath "isPrivate" = ["isPrivate"]
    ∧ toPath "projectURL" = ["projectURL"] ∧ toPath "testPackages" = ["testPackages"]
    ∧ toPath "useGithub" = ["useGithub"] := by decide

/-- The record `promptProjectDetails` returns for a script, once the two
`list` prompts settle on the entries `ct` and `cl`. -/
theorem promptProjectDetails_run (defaults : Defaults)
    (licenses testingPkgs templates : List Choice) (a : ProjectScript) (ct cl : Choice)
    (ht : Inquirer.selected (some (.str defaults.template)) templates a.template = some ct)
    (hl : Inquirer.selected (some (.str defaults.license)) licenses a.license = some cl) :
    promptProjectDetails defaults licenses testingPkgs templates a.inputs = some (.obj
      [("name", .str (if a.name = "" then defaults.projectName else a.name)),
       ("template", .str ct.value),
       ("description", .str a.description),
       ("version", .str (if a.version = "" then defaults.version else a.version)),
       ("keywords", .str (keywordsFilter a.keywords)),
       ("license", .str cl.value),
       ("author", .obj
          [("name", .str (if a.authorName = "" then defaults.gitUserName else a.authorName)),
           ("email", .str (if a.authorEmail = "" then defaults.gitUserEmail else a.authorEmail)),
           ("url", .str a.authorUrl)]),
       ("isPrivate", .bool (a.isPrivate.getD false)),
       ("projectURL", .str a.projectURL),
       ("testPackages", .arr (Inquirer.checkedValues testingPkgs a.testPackages)),
       ("useGithub", .bool (a.useGithub.getD true))]) := by
  simp only [promptProjectDetails, projectDetailsQuestions, Inquirer.prompt, ProjectScript.inputs,
    Inquirer.promptFrom, Inquirer.ask]
  rw [askInput_default _ _ _ _ rfl rfl rfl]
  simp only [Inquirer.askList, Option.getD_some, ht]
  rw [askInput_plain _ _ _ rfl rfl rfl]
  simp only []
  rw [askInput_default _ _ _ _ rfl rfl rfl]
  simp only []
  rw [askInput_filter _ _ _ _ rfl rfl rfl]
  simp only [Inquirer.askList, Option.getD_some, hl]
  rw [askInput_default _ _ _ _ rfl rfl rfl]
  simp only []
  rw [askInput_default _ _ _ _ rfl rfl rfl]
  simp only []
  rw [askInput_plain _ _ _ rfl rfl rfl]
  simp only [Inquirer.askConfirm]
  rw [askInput_plain _ _ _ rfl rfl rfl]
  simp only [Inquirer.askCheckbox, Inquirer.askConfirm, Option.getD_some]
  rfl

theorem askInput_accepts (q : Question) (text : String) (rest : List UserInput)
    (hq : q.type = PromptType.input) (hv : q.validate = none) (hf : q.filter = none) :
    Inquirer.ask q (UserInput.line text :: rest)
      = some (Inquirer.filterInput q text, rest) := by
  simp [Inquirer.ask, hq, Inquirer.askInput, Inquirer.applyFilter, Inquirer.accepts, hv, hf]

theorem ask_consumes_one (q : Question) (i : UserInput) (rest rest2 : List UserInput)
    (v : JSValue) (hv : q.validate = none) (h : Inquirer.ask q (i :: rest) = some (v, rest2)) :
    rest2 = rest := by
  unfold Inquirer.ask at h
  cases hq : q.type <;> rw [hq] at h <;> cases i <;>
    simp only [Inquirer.askInput, Inquirer.askList, Inquirer.askCheckbox, Inquirer.askConfirm,
      Inquirer.accepts, hv, reduceCtorEq] at h
  · split at h
    · exact absurd h (by simp)
    · simp only [Option.some.injEq, Prod.mk.injEq] at h
      exact h.2.symm
  · split at h
    · simp only [Option.some.injEq, Prod.mk.injEq] at h
      exact h.2.symm
    · exact absurd h (by simp)
  · simp only [Option.some.injEq, Prod.mk.injEq] at h
    exact h.2.symm
  · simp only [Option.some.injEq, Prod.mk.injEq] at h
    exact h.2.symm

/-! ## The settings-path validation -/

/-- C2: for every answer and every behaviour of `resolvePath` and
`existsSync`, the `validate` rule of `promptSettingsFile` returns `true`
exactly when the resolved path is truthy and exists, and in every other
case returns the fixed message; it is the `validate` of the one question
of `promptSettingsFile`. -/
theorem validate_true_iff (resolvePath : String → JSValue) (existsSync : JSValue → Bool)
    (ans settingsPath : String) :
    (validate resolvePath existsSync ans = JSValue.bool true
        ↔ (resolvePath ans).truthy = true ∧ existsSync (resolvePath ans) = true)
      ∧ (validate resolvePath existsSync ans = JSValue.bool true
          ∨ validate resolvePath existsSync ans = JSValue.str
              "You should introduce a real path for the create-nodejs-settings.json")
      ∧ (settingsFileQuestions resolvePath existsSync settingsPath).map
            (fun q => q.validate.map fun check => check ans)
          = [some (validate resolvePath existsSync ans)] := by
  refine ⟨?_, ?_, rfl⟩
  · cases h1 : (resolvePath ans).truthy <;> cases h2 : existsSync (resolvePath ans) <;>
      simp [validate, h1, h2]
  · cases h1 : (resolvePath ans).truthy <;> cases h2 : existsSync (resolvePath ans) <;>
      simp [validate, settingsPathMessage, h1, h2]

/-! ## The token prompt -/

/-- C4: `promptAuthToken(u, t)` builds exactly one free-text prompt, named
`github.token`, whose message is `What is your GitHub token for user `
followed by `u` and `?`, so contains `u`, and whose default is `t`; Enter
alone gives `github.token = t`.  The function is `inquirer.prompt` on
that one question. -/
theorem promptAuthToken_prompt (u t : String) :
    ∃ q : Question,
      authTokenQuestions u t = [q]
        ∧ q.type = PromptType.input
        ∧ q.name = "github.token"
        ∧ q.message = "What is your GitHub token for user " ++ u ++ "?"
        ∧ u.data <:+: q.message.data
        ∧ q.default = some (JSValue.str t)
        ∧ promptAuthToken u t [UserInput.line ""]
            = some (JSValue.obj [("github", JSValue.obj [("token", JSValue.str t)])])
        ∧ (promptAuthToken u t [UserInput.line ""]).bind (getPath ["github", "token"])
            = some (JSValue.str t)
        ∧ promptAuthToken u t = Inquirer.prompt (authTokenQuestions u t) := by
  have hrun : promptAuthToken u t [UserInput.line ""]
      = some (JSValue.obj [("github", JSValue.obj [("token", JSValue.str t)])]) := by
    simp only [promptAuthToken, authTokenQuestions, Inquirer.prompt, Inquirer.promptFrom,
      Inquirer.ask]
    rw [askInput_default _ _ _ _ rfl rfl rfl]
    rfl
  refine ⟨_, rfl, rfl, rfl, rfl, ?_, rfl, hrun, ?_, rfl⟩
  · exact ⟨"What is your GitHub token for user ".data, "?".data, by simp [String.data_append]⟩
  · rw [hrun]
    rfl

/-! ## The project details -/

/-- C5: for every defaults record, a text prompt with a default answered
by Enter alone gives the supplied default: `name` is
`defaults.projectName`, `version` is `defaults.version`, `author.name` is
`defaults.gitUserName` and `author.email` is `defaults.gitUserEmail`; the
privacy confirm has the default `false`, which Enter alone gives.  The
questions carry exactly these defaults. -/
theorem promptProjectDetails_blank_gives_defaults (defaults : Defaults)
    (licenses testingPkgs templates : List Choice) (a : ProjectScript)
    (ht : settles templates a.template) (hl : settles licenses a.license) :
    ∃ r : JSValue,
      promptProjectDetails defaults licenses testingPkgs templates a.inputs = some r
        ∧ (a.name = "" → getPath ["name"] r = some (JSValue.str defaults.projectName))
        ∧ (a.version = "" → getPath ["version"] r = some (JSValue.str defaults.version))
        ∧ (a.authorName = "" →
            getPath ["author", "name"] r = some (JSValue.str defaults.gitUserName))
        ∧ (a.authorEmail = "" →
            getPath ["author", "email"] r = some (JSValue.str defaults.gitUserEmail))
        ∧ (a.isPrivate = none → getPath ["isPrivate"] r = some (JSValue.bool false))
        ∧ (projectDetailsQuestions defaults licenses testingPkgs templates).filterMap
              (fun q => q.default.map fun d => (q.name, d))
            = [("name", JSValue.str defaults.projectName),
                ("template", JSValue.str defaults.template),
                ("version", JSValue.str defaults.version),
                ("license", JSValue.str defaults.license),
                ("author.name", JSValue.str defaults.gitUserName),
                ("author.email", JSValue.str defaults.gitUserEmail),
                ("isPrivate", JSValue.bool false)] := by
  obtain ⟨ct, hct⟩ := selected_of_settles (some (.str defaults.template)) templates _ ht
  obtain ⟨cl, hcl⟩ := selected_of_settles (some (.str defaults.license)) licenses _ hl
  refine ⟨_, promptProjectDetails_run defaults licenses testingPkgs templates a ct cl hct hcl,
    ?_, ?_, ?_, ?_, ?_, rfl⟩
  · intro h
    show some (JSValue.str (if a.name = "" then defaults.projectName else a.name)) = _
    rw [if_pos h]
  · intro h
    show some (JSValue.str (if a.version = "" then defaults.version else a.version)) = _
    rw [if_pos h]
  · intro h
    show some (JSValue.str (if a.authorName = "" then defaults.gitUserName else a.authorName))
      = _
    rw [if_pos h]
  · intro h
    show some (JSValue.str
      (if a.authorEmail = "" then defaults.gitUserEmail else a.authorEmail)) = _
    rw [if_pos h]
  · intro h
    show some (JSValue.bool (a.isPrivate.getD false)) = _
    rw [h]
    rfl

/-- Witness of C5: the sample arguments and Enter at every prompt. -/
theorem promptProjectDetails_blank_gives_defaults_witness :
    settles sampleTemplates blankScript.template ∧ settles sampleLicenses blankScript.license
      ∧ ∃ r : JSValue,
        promptProjectDetails sampleDefaults sampleLicenses sampleTestingPkgs sampleTemplates
            blankScript.inputs = some r
          ∧ (blankScript.name = "" →
              getPath ["name"] r = some (JSValue.str sampleDefaults.projectName))
          ∧ (blankScript.version = "" →
              getPath ["version"] r = some (JSValue.str sampleDefaults.version))
          ∧ (blankScript.authorName = "" →
              getPath ["author", "name"] r = some (JSValue.str sampleDefaults.gitUserName))
          ∧ (blankScript.authorEmail = "" →
              getPath ["author", "email"] r = some (JSValue.str sampleDefaults.gitUserEmail))
          ∧ (blankScript.isPrivate = none →
              getPath ["isPrivate"] r = some (JSValue.bool false))
          ∧ (projectDetailsQuestions sampleDefaults sampleLicenses sampleTestingPkgs
                sampleTemplates).filterMap
                (fun q => q.default.map fun d => (q.name, d))
              = [("name", JSValue.str sampleDefaults.projectName),
                  ("template", JSValue.str sampleDefaults.template),
                  ("version", JSValue.str sampleDefaults.version),
                  ("license", JSValue.str sampleDefaults.license),
                  ("author.name", JSValue.str sampleDefaults.gitUserName),
                  ("author.email", JSValue.str sampleDefaults.gitUserEmail),
                  ("isPrivate", JSValue.bool false)] :=
  ⟨List.cons_ne_nil _ _, List.cons_ne_nil _ _,
    promptProjectDetails_blank_gives_defaults sampleDefaults sampleLicenses sampleTestingPkgs
      sampleTemplates blankScript (List.cons_ne_nil _ _) (List.cons_ne_nil _ _)⟩

/-- C6, as stated, fails: `keywords` is a text prompt without a default,
and with Enter at every prompt its field is the text `[""]`, not the
empty string. -/
theorem blank_keywords_not_empty_string :
    ∃ r : JSValue,
      promptProjectDetails sampleDefaults sampleLicenses sampleTestingPkgs sampleTemplates
          blankScript.inputs = some r
        ∧ getPath ["keywords"] r = some (JSValue.str "[\"\"]")
        ∧ getPath ["keywords"] r ≠ some (JSValue.str "") := by
  refine ⟨_, rfl, rfl, ?_⟩
  intro h
  have h2 : some (JSValue.str "[\"\"]") = some (JSValue.str "") := h
  injection h2 with h3
  injection h3 with h4
  exact absurd h4 (by decide)

/-- C6, amended: for every script that settles the two `list` prompts, the
returned record holds every documented field, the author fields nested
under `author`, with none omitted; a blank answer resolves to the empty
string for `description`, `author.url` and `projectURL`, and to the text
`[""]` for `keywords`, whose answer goes through the filter; checking no
test package gives `testPackages` as the empty array. -/
theorem promptProjectDetails_record_complete (defaults : Defaults)
    (licenses testingPkgs templates : List Choice) (a : ProjectScript)
    (ht : settles templates a.template) (hl : settles licenses a.license) :
    ∃ r : JSValue,
      promptProjectDetails defaults licenses testingPkgs templates a.inputs = some r
        ∧ (∀ path ∈ documentedFields, (getPath path r).isSome = true)
        ∧ r.keys = ["name", "template", "description", "version", "keywords", "license",
            "author", "isPrivate", "projectURL", "testPackages", "useGithub"]
        ∧ (getPath ["author"] r).map JSValue.keys = some ["name", "email", "url"]
        ∧ (a.description = "" → getPath ["description"] r = some (JSValue.str ""))
        ∧ (a.authorUrl = "" → getPath ["author", "url"] r = some (JSValue.str ""))
        ∧ (a.projectURL = "" → getPath ["projectURL"] r = some (JSValue.str ""))
        ∧ (a.keywords = "" → getPath ["keywords"] r = some (JSValue.str "[\"\"]"))
        ∧ (a.testPackages = [] → getPath ["testPackages"] r = some (JSValue.arr [])) := by
  obtain ⟨ct, hct⟩ := selected_of_settles (some (.str defaults.template)) templates _ ht
  obtain ⟨cl, hcl⟩ := selected_of_settles (some (.str defaults.license)) licenses _ hl
  refine ⟨_, promptProjectDetails_run defaults licenses testingPkgs templates a ct cl hct hcl,
    ?_, rfl, rfl, ?_, ?_, ?_, ?_, ?_⟩
  · intro path hpath
    simp only [documentedFields, List.mem_cons, List.mem_singleton, List.not_mem_nil,
      or_false] at hpath
    rcases hpath with h | h | h | h | h | h | h | h | h | h | h | h | h <;> subst h <;> rfl
  · intro h
    show some (JSValue.str a.description) = _
    rw [h]
  · intro h
    show some (JSValue.str a.authorUrl) = _
    rw [h]
  · intro h
    show some (JSValue.str a.projectURL) = _
    rw [h]
  · intro h
    show some (JSValue.str (keywordsFilter a.keywords)) = _
    rw [h]
    rfl
  · intro h
    show some (JSValue.arr (Inquirer.checkedValues testingPkgs a.testPackages)) = _
    rw [h, checkedValues_nil]

/-- Witness of C6: the sample arguments and Enter at every prompt. -/
theorem promptProjectDetails_record_complete_witness :
    settles sampleTemplates blankScript.template ∧ settles sampleLicenses blankScript.license
      ∧ ∃ r : JSValue,
        promptProjectDetails sampleDefaults sampleLicenses sampleTestingPkgs sampleTemplates
            blankScript.inputs = some r
          ∧ (∀ path ∈ documentedFields, (getPath path r).isSome = true)
          ∧ r.keys = ["name", "template", "description", "version", "keywords", "license",
              "author", "isPrivate", "projectURL", "testPackages", "useGithub"]
          ∧ (getPath ["author"] r).map JSValue.keys = some ["name", "email", "url"]
          ∧ (blankScript.description = "" → getPath ["description"] r = some (JSValue.str ""))
          ∧ (blankScript.authorUrl = "" → getPath ["author", "url"] r = some (JSValue.str ""))
          ∧ (blankScript.projectURL = "" → getPath ["projectURL"] r = some (JSValue.str ""))
          ∧ (blankScript.keywords = "" →
              getPath ["keywords"] r = some (JSValue.str "[\"\"]"))
          ∧ (blankScript.testPackages = [] →
              getPath ["testPackages"] r = some (JSValue.arr [])) :=
  ⟨List.cons_ne_nil _ _, List.cons_ne_nil _ _,
    promptProjectDetails_record_complete sampleDefaults sampleLicenses sampleTestingPkgs
      sampleTemplates blankScript (List.cons_ne_nil _ _) (List.cons_ne_nil _ _)⟩

/-- C7: the questions pass the three supplied lists through unchanged,
templates to `template`, licenses to `license` and testingPkgs to
`testPackages`, and for every defaults record, member of its list or not,
the accepted `template` is a value of the templates list, the accepted
`license` a value of the licenses list, and every element of
`testPackages` a value of the testingPkgs list. -/
theorem promptProjectDetails_choices_members (defaults : Defaults)
    (licenses testingPkgs templates : List Choice) (a : ProjectScript)
    (ht : settles templates a.template) (hl : settles licenses a.license) :
    (projectDetailsQuestions defaults licenses testingPkgs templates).filterMap
          (fun q => q.choices.map fun choices => (q.name, choices))
        = [("template", templates), ("license", licenses), ("testPackages", testingPkgs)]
      ∧ ∃ (r : JSValue) (ct cl : Choice) (packages : List JSValue),
        promptProjectDetails defaults licenses testingPkgs templates a.inputs = some r
          ∧ getPath ["template"] r = some (JSValue.str ct.value) ∧ ct ∈ templates
          ∧ getPath ["license"] r = some (JSValue.str cl.value) ∧ cl ∈ licenses
          ∧ getPath ["testPackages"] r = some (JSValue.arr packages)
          ∧ ∀ v ∈ packages, ∃ c ∈ testingPkgs, v = JSValue.str c.value := by
  obtain ⟨ct, hct⟩ := selected_of_settles (some (.str defaults.template)) templates _ ht
  obtain ⟨cl, hcl⟩ := selected_of_settles (some (.str defaults.license)) licenses _ hl
  exact ⟨rfl, _, ct, cl, _,
    promptProjectDetails_run defaults licenses testingPkgs templates a ct cl hct hcl,
    rfl, selected_mem _ _ _ _ hct, rfl, selected_mem _ _ _ _ hcl, rfl,
    fun v hv => mem_checkedValues _ _ v hv⟩

/-- Witness of C7: defaults that are in no list, Enter at every prompt. -/
theorem promptProjectDetails_choices_members_witness :
    settles sampleTemplates blankScript.template ∧ settles sampleLicenses blankScript.license
      ∧ (projectDetailsQuestions strayDefaults sampleLicenses sampleTestingPkgs
            sampleTemplates).filterMap
            (fun q => q.choices.map fun choices => (q.name, choices))
          = [("template", sampleTemplates), ("license", sampleLicenses),
              ("testPackages", sampleTestingPkgs)]
      ∧ ∃ (r : JSValue) (ct cl : Choice) (packages : List JSValue),
        promptProjectDetails strayDefaults sampleLicenses sampleTestingPkgs sampleTemplates
            blankScript.inputs = some r
          ∧ getPath ["template"] r = some (JSValue.str ct.value) ∧ ct ∈ sampleTemplates
          ∧ getPath ["license"] r = some (JSValue.str cl.value) ∧ cl ∈ sampleLicenses
          ∧ getPath ["testPackages"] r = some (JSValue.arr packages)
          ∧ ∀ v ∈ packages, ∃ c ∈ sampleTestingPkgs, v = JSValue.str c.value :=
  ⟨List.cons_ne_nil _ _, List.cons_ne_nil _ _,
    promptProjectDetails_choices_members strayDefaults sampleLicenses sampleTestingPkgs
      sampleTemplates blankScript (List.cons_ne_nil _ _) (List.cons_ne_nil _ _)⟩

/-- C8: for every argument tuple `promptProjectDetails` presents exactly
thirteen prompts, in this order and of these kinds; of them only
`keywords` has a transform, and `description`, `keywords`, `author.url`,
`projectURL`, `testPackages` and `useGithub` are the ones without a
default.  The list is built from the arguments alone, before any answer
is read, and the function is `inquirer.prompt` on that list. -/
theorem promptProjectDetails_thirteen_prompts (defaults : Defaults)
    (licenses testingPkgs templates : List Choice) :
    (projectDetailsQuestions defaults licenses testingPkgs templates).map
          (fun q => (q.name, q.type))
        = [("name", PromptType.input), ("template", PromptType.list),
            ("description", PromptType.input), ("version", PromptType.input),
            ("keywords", PromptType.input), ("license", PromptType.list),
            ("author.name", PromptType.input), ("author.email", PromptType.input),
            ("author.url", PromptType.input), ("isPrivate", PromptType.confirm),
            ("projectURL", PromptType.input), ("testPackages", PromptType.checkbox),
            ("useGithub", PromptType.confirm)]
      ∧ (projectDetailsQuestions defaults licenses testingPkgs templates).length = 13
      ∧ ((projectDetailsQuestions defaults licenses testingPkgs templates).filter
            fun q => q.filter.isSome).map (fun q => q.name) = ["keywords"]
      ∧ ((projectDetailsQuestions defaults licenses testingPkgs templates).filter
            fun q => q.default.isNone).map (fun q => q.name)
          = ["description", "keywords", "author.url", "projectURL", "testPackages",
              "useGithub"]
      ∧ promptProjectDetails defaults licenses testingPkgs templates
          = Inquirer.prompt (projectDetailsQuestions defaults licenses testingPkgs templates) :=
  ⟨rfl, rfl, rfl, rfl, rfl⟩

/-- C9: the settings-path prompt is the only prompt of the module with a
`validate`: no question of `promptProjectDetails`, `promptGitRemoteDetails`,
`promptGithubUser`, `promptAuthToken` or `promptUpdateToken` has one, so
each of their prompts takes the first answer given, the empty string
included, and is not shown again, and each of the five functions returns
a record for every script of answers of the right kinds (for
`promptProjectDetails`, every script that settles its two `list`
prompts); `promptGitRemoteDetails` is exactly the two free-text prompts
`git.sshUrl` and `issueTracker`, without defaults and without validation,
and returns whatever two lines are typed. -/
theorem only_settings_prompt_validates :
    (∀ (defaults : Defaults) (licenses testingPkgs templates : List Choice),
        ∀ q ∈ projectDetailsQuestions defaults licenses testingPkgs templates,
          q.validate.isNone = true)
      ∧ (∀ q ∈ gitRemoteDetailsQuestions, q.validate.isNone = true)
      ∧ (∀ user : String, ∀ q ∈ githubUserQuestions user, q.validate.isNone = true)
      ∧ (∀ user token : String, ∀ q ∈ authTokenQuestions user token, q.validate.isNone = true)
      ∧ (∀ q ∈ updateTokenQuestions, q.validate.isNone = true)
      ∧ (∀ (resolvePath : String → JSValue) (existsSync : JSValue → Bool) (path : String),
          ∀ q ∈ settingsFileQuestions resolvePath existsSync path, q.validate.isSome = true)
      ∧ (∀ (q : Question) (i : UserInput) (rest rest2 : List UserInput) (v : JSValue),
          q.validate = none → Inquirer.ask q (i :: rest) = some (v, rest2) → rest2 = rest)
      ∧ gitRemoteDetailsQuestions.map
            (fun q => (q.name, q.type, q.default.isNone, q.filter.isNone, q.validate.isNone))
          = [("git.sshUrl", PromptType.input, true, true, true),
              ("issueTracker", PromptType.input, true, true, true)]
      ∧ (∀ url tracker : String,
          promptGitRemoteDetails [UserInput.line url, UserInput.line tracker]
            = some (JSValue.obj [("git", JSValue.obj [("sshUrl", JSValue.str url)]),
                ("issueTracker", JSValue.str tracker)]))
      ∧ (∀ user text : String,
          promptGithubUser user [UserInput.line text]
            = some (JSValue.obj [("github", JSValue.obj
                [("user", JSValue.str (if text = "" then user else text))])]))
      ∧ (∀ user token text : String,
          promptAuthToken user token [UserInput.line text]
            = some (JSValue.obj [("github", JSValue.obj
                [("token", JSValue.str (if text = "" then token else text))])]))
      ∧ (∀ b : Bool,
          promptUpdateToken [UserInput.yesNo (some b)]
            = some (JSValue.obj [("updateToken", JSValue.bool b)]))
      ∧ (∀ b : Option Bool, ∃ r : JSValue, promptUpdateToken [UserInput.yesNo b] = some r)
      ∧ (∀ (defaults : Defaults) (licenses testingPkgs templates : List Choice)
          (a : ProjectScript),
          settles templates a.template → settles licenses a.license →
            ∃ r : JSValue,
              promptProjectDetails defaults licenses testingPkgs templates a.inputs = some r
                ∧ getPath ["description"] r = some (JSValue.str a.description)
                ∧ getPath ["author", "url"] r = some (JSValue.str a.authorUrl)
                ∧ getPath ["projectURL"] r = some (JSValue.str a.projectURL))
      ∧ (∀ (q : Question) (text : String) (rest : List UserInput),
          q.type = PromptType.input → q.validate = none → q.filter = none →
            ∃ v : JSValue, Inquirer.ask q (UserInput.line text :: rest) = some (v, rest)) := by
  refine ⟨?_, ?_, ?_, ?_, ?_, ?_, ?_, rfl, ?_, ?_, ?_, ?_, ?_, ?_, ?_⟩
  · intro defaults licenses testingPkgs templates q hq
    simp only [projectDetailsQuestions, List.mem_cons, List.mem_singleton, List.not_mem_nil,
      or_false] at hq
    rcases hq with h | h | h | h | h | h | h | h | h | h | h | h | h <;> subst h <;> rfl
  · intro q hq
    simp only [gitRemoteDetailsQuestions, List.mem_cons, List.mem_singleton, List.not_mem_nil,
      or_false] at hq
    rcases hq with h | h <;> subst h <;> rfl
  · intro user q hq
    simp only [githubUserQuestions, List.mem_singleton] at hq
    subst hq
    rfl
  · intro user token q hq
    simp only [authTokenQuestions, List.mem_singleton] at hq
    subst hq
    rfl
  · intro q hq
    simp only [updateTokenQuestions, List.mem_singleton] at hq
    subst hq
    rfl
  · intro resolvePath existsSync path q hq
    simp only [settingsFileQuestions, List.mem_singleton] at hq
    subst hq
    rfl
  · intro q i rest rest2 v hv h
    exact ask_consumes_one q i rest rest2 v hv h
  · intro url tracker
    simp only [promptGitRemoteDetails, gitRemoteDetailsQuestions, Inquirer.prompt,
      Inquirer.promptFrom, Inquirer.ask]
    rw [askInput_plain _ _ _ rfl rfl rfl]
    simp only []
    rw [askInput_plain _ _ _ rfl rfl rfl]
    rfl
  · intro user text
    simp only [promptGithubUser, githubUserQuestions, Inquirer.prompt, Inquirer.promptFrom,
      Inquirer.ask]
    rw [askInput_default _ _ _ _ rfl rfl rfl]
    rfl
  · intro user token text
    simp only [promptAuthToken, authTokenQuestions, Inquirer.prompt, Inquirer.promptFrom,
      Inquirer.ask]
    rw [askInput_default _ _ _ _ rfl rfl rfl]
    rfl
  · intro b
    rfl
  · intro b
    exact ⟨_, rfl⟩
  · intro defaults licenses testingPkgs templates a ht hl
    obtain ⟨ct, hct⟩ := selected_of_settles (some (.str defaults.template)) templates _ ht
    obtain ⟨cl, hcl⟩ := selected_of_settles (some (.str defaults.license)) licenses _ hl
    exact ⟨_, promptProjectDetails_run defaults licenses testingPkgs templates a ct cl hct hcl,
      rfl, rfl, rfl⟩
  · intro q text rest hq hv hf
    exact ⟨_, askInput_accepts q text rest hq hv hf⟩

/-- Witness of C9: the sample arguments and Enter at every prompt settle the
two `list` prompts, and `promptProjectDetails` returns a record. -/
theorem only_settings_prompt_validates_witness :
    settles sampleTemplates blankScript.template ∧ settles sampleLicenses blankScript.license
      ∧ ∃ r : JSValue,
        promptProjectDetails sampleDefaults sampleLicenses sampleTestingPkgs sampleTemplates
            blankScript.inputs = some r
          ∧ getPath ["description"] r = some (JSValue.str blankScript.description)
          ∧ getPath ["author", "url"] r = some (JSValue.str blankScript.authorUrl)
          ∧ getPath ["projectURL"] r = some (JSValue.str blankScript.projectURL) := by
  obtain ⟨_, _, _, _, _, _, _, _, _, _, _, _, _, hrun, _⟩ := only_settings_prompt_validates
  exact ⟨List.cons_ne_nil _ _, List.cons_ne_nil _ _,
    hrun sampleDefaults sampleLicenses sampleTestingPkgs sampleTemplates blankScript
      (List.cons_ne_nil _ _) (List.cons_ne_nil _ _)⟩

end Questions
